import Mathlib

/-!
Verification of the run-input signaling core (`prefect/input/run_input.py`).

The Python module is shallowly embedded below.  JSON-decoded payloads are
modelled by `JVal`; the durable store behind the channel is a list of keyed
records; the store actions (`create_flow_run_input`, `read_flow_run_input`,
`filter_flow_run_input`) live in `prefect.input.actions`, which is not part
of this repository's sources, so they are modelled from the spec's store
contract.  Python exceptions become the `PyErr` error type and fallible
code returns `Except PyErr _`.  Wall-clock time in the poller is measured
in half-seconds (`2 * t`), so that the initial sleep `min(timeout / 2,
poll_interval)` stays integral.
-/

/-- JSON-like decoded values, as produced by `orjson.loads`. -/
inductive JVal where
  | null : JVal
  | str (s : String) : JVal
  | obj (fields : List (String × JVal)) : JVal

/-- First-match association-list lookup, the model of Python dict indexing
(JSON-decoded dicts have no duplicate keys). -/
def assocLookup {α : Type} (k : String) : List (String × α) → Option α
  | [] => none
  | (k1, v) :: rest => if k1 = k then some v else assocLookup k rest

/-- Dict indexing on a decoded JSON value; `none` when the key is absent or
the value is not an object. -/
def JVal.lookup (v : JVal) (k : String) : Option JVal :=
  match v with
  | .obj fs => assocLookup k fs
  | _ => none

/-- The Python exceptions the module can raise. -/
inductive PyErr where
  | NotFound : PyErr
  | KeyError (k : String) : PyErr
  | ValidationError : PyErr
  | RuntimeError (msg : String) : PyErr
  | TimeoutError : PyErr
  | TypeError : PyErr
deriving DecidableEq

/-- A stored flow-run-input record: a string key and the decoded JSON value. -/
structure FlowRunInputRec where
  key : String
  decoded_value : JVal

/-- The durable store behind one run's input channel, in creation order. -/
abbrev Store := List FlowRunInputRec

/-- Modelled from the spec: `create_flow_run_input` (prefect.input.actions,
not under src): a durable write of one keyed record. -/
def create_flow_run_input (store : Store) (key : String) (value : JVal) : Store :=
  store ++ [⟨key, value⟩]

/-- Modelled from the spec: `read_flow_run_input` (prefect.input.actions,
not under src): read the value at a key, failing with NotFound if absent. -/
def read_flow_run_input (store : Store) (key : String) : Except PyErr JVal :=
  match store.find? (fun r => r.key == key) with
  | some r => .ok r.decoded_value
  | none => .error .NotFound

/-- Modelled from the spec: `filter_flow_run_input` (prefect.input.actions,
not under src): up to `limit` records whose key starts with `keyPref` and is
not in `exclude_keys`, in stable creation order. -/
def filter_flow_run_input (store : Store) (keyPref : String) (limit : Nat)
    (exclude_keys : List String) : List FlowRunInputRec :=
  (store.filter
    (fun r => keyPref.data.isPrefixOf r.key.data
      && !(decide (r.key ∈ exclude_keys)))).take limit

/-- Model of `Keyset`: a mapping with exactly the two keys `response` and `schema`. -/
structure Keyset where
  response : String
  schema : String
deriving DecidableEq

/-- The function `keyset_from_base_key`: the keyset for the given base key. -/
def keyset_from_base_key (base_key : String) : Keyset :=
  { response := base_key ++ "-response",
    schema := base_key ++ "-schema" }

/-- A keyset as it is serialized into the stored `"keyset"` record. -/
def Keyset.toJVal (k : Keyset) : JVal :=
  .obj [("response", .str k.response), ("schema", .str k.schema)]

/-- The kinds of run states (prefect StateType enum). -/
inductive StateType where
  | SCHEDULED | PENDING | RUNNING | COMPLETED | FAILED
  | CANCELLED | CRASHED | PAUSED | CANCELLING
deriving DecidableEq

/-- The string value of a state type (the enum's `.value`). -/
def StateType.value : StateType → String
  | .SCHEDULED => "SCHEDULED"
  | .PENDING => "PENDING"
  | .RUNNING => "RUNNING"
  | .COMPLETED => "COMPLETED"
  | .FAILED => "FAILED"
  | .CANCELLED => "CANCELLED"
  | .CRASHED => "CRASHED"
  | .PAUSED => "PAUSED"
  | .CANCELLING => "CANCELLING"

/-- The part of `State.state_details` the module reads. -/
structure StateDetails where
  pause_key : String

/-- A run state, with the fields `keyset_from_paused_state` reads. -/
structure State where
  type : StateType
  name : String
  state_details : StateDetails

/-- Modelled from the spec: `State.is_paused` (prefect.states, not under
src): whether the state represents a paused run. -/
def State.is_paused (s : State) : Bool :=
  s.type == .PAUSED

/-- The function `keyset_from_paused_state`: the keyset for the given Paused state. -/
def keyset_from_paused_state (state : State) : Except PyErr Keyset :=
  if !(State.is_paused state) then
    .error (.RuntimeError (state.type.value ++ " is unsupported."))
  else
    .ok (keyset_from_base_key
      (state.name.toLower ++ "-" ++ state.state_details.pause_key))

/-- A `RunInput` subclass, as a schema descriptor: the class name and the
declared fields, each with an optional default value. -/
structure RunInputCls where
  name : String
  fields : List (String × Option JVal)

/-- The function `send_input_keyset_from_run_inputs`: one keyset per declared run-input
type, keyed by the type's name, with base key the lowercased name. -/
def send_input_keyset_from_run_inputs (run_inputs : List RunInputCls) :
    List (String × Keyset) :=
  run_inputs.map (fun ri => (ri.name, keyset_from_base_key ri.name.toLower))

/-- An instance of a `RunInput` subclass: the class plus its field values. -/
structure RunInputInst where
  cls : RunInputCls
  data : List (String × JVal)

/-- Model of `InputWrapper`: a delivered value plus the sending run's id, if any. -/
structure InputWrapperM where
  value : RunInputInst
  sending_flow_run_id : Option String

/-- The shape `orjson.loads(wrapper.json())`: the serialized form of an InputWrapper. -/
def inputWrapperToJVal (inst : RunInputInst) (sending : Option String) : JVal :=
  .obj [("value", .obj inst.data),
        ("sending_flow_run_id",
          match sending with
          | none => .null
          | some s => .str s)]

/-- The function `send_input`: read the recipient's published keyset from the reserved
`"keyset"` record, resolve the keyset for the input's type name (a missing
name is a KeyError), mint the sub-key `response ++ "-" ++ uuid` and write
the wrapped input there.  The ambient-context sender id and the fresh
`uuid4()` suffix are passed explicitly; the store is the recipient run's
store and is returned unchanged on failure. -/
def send_input (store : Store) (input : RunInputInst)
    (sending_flow_run_id : Option String) (uuid : String) :
    (Except PyErr Unit) × Store :=
  match read_flow_run_input store "keyset" with
  | .error e => (.error e, store)
  | .ok keyset =>
    match keyset.lookup input.cls.name with
    | none => (.error (.KeyError input.cls.name), store)
    | some input_keyset =>
      match input_keyset.lookup "response" with
      | none => (.error (.KeyError "response"), store)
      | some (.str base_key) =>
        (.ok (),
          create_flow_run_input store (base_key ++ "-" ++ uuid)
            (inputWrapperToJVal input sending_flow_run_id))
      | some _ => (.error .TypeError, store)

/-- Validation of the declared fields: each field takes the payload value
when present, else its declared default, else validation fails. -/
def validateFields (payload : List (String × JVal)) :
    List (String × Option JVal) → Except PyErr (List (String × JVal))
  | [] => .ok []
  | (n, dflt) :: rest =>
    match (match assocLookup n payload with
           | some v => some v
           | none => dflt) with
    | none => .error .ValidationError
    | some v =>
      match validateFields payload rest with
      | .error e => .error e
      | .ok tl => .ok ((n, v) :: tl)

/-- Modelled from the spec: pydantic model construction `cls(**value)` under
`Config.extra = "forbid"` (the validation engine is the external pydantic
library; the closed-schema `Config` is source): the payload must be an
object, undeclared fields are rejected, and every declared field must be
supplied or defaulted. -/
def validateRunInput (cls : RunInputCls) (v : JVal) :
    Except PyErr (List (String × JVal)) :=
  match v with
  | .obj kvs =>
    if kvs.any (fun kv => (assocLookup kv.1 cls.fields).isNone) then
      .error .ValidationError
    else
      validateFields kvs cls.fields
  | _ => .error .ValidationError

/-- Modelled from the spec: the serialized structural schema of the type
(`create_v2_schema` / `cls.schema`, external pydantic): the field names
and the type's name. -/
def RunInputCls.schemaJVal (cls : RunInputCls) : JVal :=
  .obj [("title", .str cls.name),
        ("properties", .obj (cls.fields.map (fun f => (f.1, .null))))]

/-- The classmethod `RunInput.save`: store the type's structural schema under the keyset's
schema key.  One write; the instance data is not written. -/
def RunInputCls.save (cls : RunInputCls) (store : Store) (keyset : Keyset) : Store :=
  create_flow_run_input store keyset.schema cls.schemaJVal

/-- The classmethod `RunInput.load`: read the raw value at the keyset's response key and
construct a typed instance via validation. -/
def RunInputCls.load (cls : RunInputCls) (store : Store) (keyset : Keyset) :
    Except PyErr RunInputInst :=
  match read_flow_run_input store keyset.response with
  | .error e => .error e
  | .ok v =>
    match validateRunInput cls v with
    | .error e => .error e
    | .ok data => .ok ⟨cls, data⟩

/-- The `get_input` poller: the run-input class, the timeout and poll
interval (seconds), the private exclusion set of already consumed keys,
the timeout-surfacing flag, and the cached channel keyset. -/
structure get_input where
  run_input_cls : RunInputCls
  timeout : Nat
  poll_interval : Nat
  exclude_keys : List String
  raise_timeout_error : Bool
  keysetCache : Option JVal

/-- Model of `get_input.__init__`: a fresh poller starts with an empty exclusion set
and no cached keyset (Python defaults: timeout 3600, poll_interval 10,
raise_timeout_error False). -/
def get_input.init (cls : RunInputCls) (timeout poll_interval : Nat)
    (raise_timeout_error : Bool) : get_input :=
  ⟨cls, timeout, poll_interval, [], raise_timeout_error, none⟩

/-- The method `get_input.keyset`: lazily read the own channel keyset from the reserved
`"keyset"` record, caching it for the poller's lifetime.  The updated
poller is returned alongside (Python mutates `self._keyset`). -/
def get_input.keyset (g : get_input) (store : Store) :
    (Except PyErr JVal) × get_input :=
  match g.keysetCache with
  | some kv => (.ok kv, g)
  | none =>
    match read_flow_run_input store "keyset" with
    | .error e => (.error e, g)
    | .ok kv => (.ok kv, { g with keysetCache := some kv })

/-- The method `get_input.filter_for_inputs`: resolve the keyset, look up the keyset of
the poller's class name and its response key, query the store for records
with that key as key-prefix, excluding the already consumed keys, and add
the found records' keys to the exclusion set.  `next` always calls this
with `limit = 1`.  The updated poller is returned alongside (Python
mutates `self`). -/
def get_input.filter_for_inputs (g : get_input) (store : Store) (limit : Nat) :
    (Except PyErr (List FlowRunInputRec)) × get_input :=
  match g.keyset store with
  | (.error e, g1) => (.error e, g1)
  | (.ok kv, g1) =>
    match kv.lookup g1.run_input_cls.name with
    | none => (.error (.KeyError g1.run_input_cls.name), g1)
    | some input_keyset =>
      match input_keyset.lookup "response" with
      | none => (.error (.KeyError "response"), g1)
      | some (.str respKey) =>
        let found := filter_flow_run_input store respKey limit g1.exclude_keys
        if found.isEmpty then (.ok found, g1)
        else (.ok found,
          { g1 with exclude_keys := g1.exclude_keys ++ found.map (·.key) })
      | some _ => (.error .TypeError, g1)

/-- The `sending_flow_run_id` extraction during `InputWrapper` construction:
absent or null gives None, a string parses, anything else fails pydantic
validation. -/
def parseSending : Option JVal → Except PyErr (Option String)
  | none => .ok none
  | some .null => .ok none
  | some (.str s) => .ok (some s)
  | some _ => .error .ValidationError

/-- The method `get_input.to_input_wrapper`: pop `"value"` out of the record's decoded
value (KeyError when missing), validate it as an instance of the poller's
class, and wrap it with the remaining envelope fields. -/
def get_input.to_input_wrapper (g : get_input) (rec : FlowRunInputRec) :
    Except PyErr InputWrapperM :=
  match rec.decoded_value with
  | .obj kvs =>
    match assocLookup "value" kvs with
    | none => .error (.KeyError "value")
    | some v =>
      match validateRunInput g.run_input_cls v with
      | .error e => .error e
      | .ok data =>
        match parseSending
            (assocLookup "sending_flow_run_id"
              (kvs.filter (fun kv => kv.1 != "value"))) with
        | .error e => .error e
        | .ok s => .ok ⟨⟨g.run_input_cls, data⟩, s⟩
  | _ => .error (.KeyError "value")

/-- The polling loop inside `anyio.fail_after(timeout)` in `get_input.next`:
query, return a found record's wrapper, otherwise sleep `poll_interval`
and repeat; the enclosing `fail_after` cancels at the first sleep that
reaches the deadline, at wall-clock time `timeout`.  `env q` is the store
snapshot seen by the q-th query of the call; `timeout2` and `pollInt2` are
in half-seconds; `t` is the elapsed half-seconds.  `fuel` bounds the
recursion: `none` means the loop was still running after `fuel` queries
(with a positive poll interval, `2 * timeout + 1` fuel always suffices).
The consumed record (`flow_run_inputs[0]`, when one is found) is returned
alongside the result so that statements can name it. -/
def pollLoop (env : Nat → Store) (timeout2 pollInt2 : Nat) :
    Nat → get_input → Nat → Nat →
    Option ((Except PyErr InputWrapperM) × Option FlowRunInputRec × get_input × Nat)
  | 0, _, _, _ => none
  | fuel + 1, g, q, t =>
    match g.filter_for_inputs (env q) 1 with
    | (.error e, g1) => some (.error e, none, g1, t)
    | (.ok (r :: _), g1) => some (g1.to_input_wrapper r, some r, g1, t)
    | (.ok [], g1) =>
      if timeout2 ≤ t + pollInt2 then
        some (.error .TimeoutError, none, g1, timeout2)
      else
        pollLoop env timeout2 pollInt2 fuel g1 (q + 1) (t + pollInt2)

/-- The method `get_input.next`: one immediate query, then — under
`anyio.fail_after(timeout)` — an initial sleep of
`min(timeout / 2, poll_interval)` followed by the fixed-cadence polling
loop.  Returns the result (wrapper, decode failure, or TimeoutError), the
consumed record if one was found, the updated poller and the completion
time in half-seconds; `none` only when the model's fuel runs out (possible
only with `poll_interval = 0` and no record ever found). -/
def get_input.next (g : get_input) (env : Nat → Store) :
    Option ((Except PyErr InputWrapperM) × Option FlowRunInputRec × get_input × Nat) :=
  match g.filter_for_inputs (env 0) 1 with
  | (.error e, g1) => some (.error e, none, g1, 0)
  | (.ok (r :: _), g1) => some (g1.to_input_wrapper r, some r, g1, 0)
  | (.ok [], g1) =>
    if 2 * g.timeout ≤ 0 + min g.timeout (2 * g.poll_interval) then
      some (.error .TimeoutError, none, g1, 2 * g.timeout)
    else
      pollLoop env (2 * g.timeout) (2 * g.poll_interval) (2 * g.timeout + 1)
        g1 1 (min g.timeout (2 * g.poll_interval))

/-- The outcome of one step of the iteration protocol. -/
inductive IterResult where
  | item (w : InputWrapperM) : IterResult
  | stopIteration : IterResult
  | stopAsyncIteration : IterResult
  | raised (e : PyErr) : IterResult

/-- Model of `get_input.__next__`: call `next`, turning a TimeoutError into
StopIteration unless `raise_timeout_error` is set. -/
def get_input.dunder_next (g : get_input) (env : Nat → Store) :
    Option (IterResult × Option FlowRunInputRec × get_input × Nat) :=
  match g.next env with
  | none => none
  | some (res, rcd, g1, t) =>
    some
      ((match res with
        | .ok w => .item w
        | .error .TimeoutError =>
          if g.raise_timeout_error then .raised .TimeoutError
          else .stopIteration
        | .error e => .raised e), rcd, g1, t)

/-- Model of `get_input.__anext__`: call `next`, turning a TimeoutError into
StopAsyncIteration unless `raise_timeout_error` is set. -/
def get_input.dunder_anext (g : get_input) (env : Nat → Store) :
    Option (IterResult × Option FlowRunInputRec × get_input × Nat) :=
  match g.next env with
  | none => none
  | some (res, rcd, g1, t) =>
    some
      ((match res with
        | .ok w => .item w
        | .error .TimeoutError =>
          if g.raise_timeout_error then .raised .TimeoutError
          else .stopAsyncIteration
        | .error e => .raised e), rcd, g1, t)

/-- A session of successive `next` calls on one poller instance: `envs`
gives each call's store history; the result is the list of records the
instance consumed, in order, and the final poller state.  The session
stops if a call never returns (fuel exhaustion in the model). -/
def runNexts : get_input → List (Nat → Store) → List FlowRunInputRec × get_input
  | g, [] => ([], g)
  | g, env :: rest =>
    match g.next env with
    | none => ([], g)
    | some (_, rcd, g1, _) =>
      let tail := runNexts g1 rest
      (match rcd with
       | some r => r :: tail.1
       | none => tail.1, tail.2)

/-! ## Concrete fixtures used by the witnesses -/

/-- A concrete run-input type with one required field `x`. -/
def fooCls : RunInputCls := ⟨"Foo", [("x", none)]⟩

/-- The channel keyset for base key `"foo"`. -/
def fooKeyset : Keyset := keyset_from_base_key "foo"

/-- A published SendInputKeyset declaring only the type `Foo`. -/
def fooKeysetJ : JVal := .obj [("Foo", fooKeyset.toJVal)]

/-- The reserved `"keyset"` record publishing `fooKeysetJ`. -/
def ksRec : FlowRunInputRec := ⟨"keyset", fooKeysetJ⟩

/-- A well-formed delivered envelope on `Foo`'s response channel. -/
def goodRec : FlowRunInputRec :=
  ⟨"foo-response-abc",
    .obj [("value", .obj [("x", .str "1")]), ("sending_flow_run_id", .null)]⟩

/-- A malformed envelope (no `"value"` entry) on `Foo`'s response channel. -/
def badRec : FlowRunInputRec :=
  ⟨"foo-response-bad", .obj [("oops", .null)]⟩

/-- A store with the published keyset and one well-formed delivery. -/
def demoStore : Store := [ksRec, goodRec]

/-- A store with the published keyset and no delivery. -/
def emptyChannelStore : Store := [ksRec]

/-- A store with the published keyset and one malformed delivery. -/
def badStore : Store := [ksRec, badRec]

/-- A freshly initialized poller for `Foo` (timeout 2 s, poll interval 1 s). -/
def gDemo : get_input := get_input.init fooCls 2 1 false

/-- A concrete well-formed instance of `Foo`. -/
def fooInst : RunInputInst := ⟨fooCls, [("x", .str "1")]⟩

/-- A concrete instance of a type the recipient never declared. -/
def barInst : RunInputInst := ⟨⟨"Bar", []⟩, []⟩

/-! ## Helper lemmas -/

/-- Records returned by a store filter query match the key prefix and avoid
the exclusion set. -/
lemma mem_filter_flow_run_input {store : Store} {keyPref : String} {limit : Nat}
    {exclude : List String} {r : FlowRunInputRec}
    (h : r ∈ filter_flow_run_input store keyPref limit exclude) :
    r ∈ store ∧ keyPref.data.isPrefixOf r.key.data = true ∧ r.key ∉ exclude := by
  unfold filter_flow_run_input at h
  have h1 := List.take_subset _ _ h
  rw [List.mem_filter] at h1
  obtain ⟨hs, hp⟩ := h1
  simp only [Bool.and_eq_true, Bool.not_eq_true', decide_eq_false_iff_not] at hp
  exact ⟨hs, hp.1, hp.2⟩

/-- The method `get_input.keyset` either leaves the poller unchanged or only sets the
cache to the value it read. -/
lemma get_input.keyset_cases (g : get_input) (store : Store) :
    (g.keyset store).2 = g ∨
    ∃ kv, g.keyset store = (.ok kv, { g with keysetCache := some kv }) := by
  unfold get_input.keyset
  rcases g.keysetCache with _ | kv
  · rcases read_flow_run_input store "keyset" with e | kv2
    · exact Or.inl rfl
    · exact Or.inr ⟨kv2, rfl⟩
  · exact Or.inl rfl

/-- The method `get_input.keyset` changes no field but the cache. -/
lemma get_input.keyset_fields (g : get_input) (store : Store) :
    ((g.keyset store).2).exclude_keys = g.exclude_keys ∧
    ((g.keyset store).2).run_input_cls = g.run_input_cls ∧
    ((g.keyset store).2).raise_timeout_error = g.raise_timeout_error := by
  rcases g.keyset_cases store with h | ⟨kv, h⟩ <;> rw [h] <;>
    exact ⟨rfl, rfl, rfl⟩

/-- One `filter_for_inputs` call only grows the exclusion set, changes no
configuration field, and every record it returns was not yet excluded and
is excluded afterwards. -/
lemma get_input.filter_for_inputs_spec (g : get_input) (store : Store) (limit : Nat)
    {res : Except PyErr (List FlowRunInputRec)} {g1 : get_input}
    (h : g.filter_for_inputs store limit = (res, g1)) :
    g.exclude_keys ⊆ g1.exclude_keys ∧
    g1.run_input_cls = g.run_input_cls ∧
    g1.raise_timeout_error = g.raise_timeout_error ∧
    ∀ l, res = .ok l → ∀ r ∈ l, r.key ∉ g.exclude_keys ∧ r.key ∈ g1.exclude_keys := by
  unfold get_input.filter_for_inputs at h
  split at h
  case _ e gk heq =>
    have hf := g.keyset_fields store
    rw [heq] at hf
    simp only [Prod.mk.injEq] at h
    obtain ⟨h1, h2⟩ := h
    subst h1; subst h2
    refine ⟨by rw [hf.1]; exact List.Subset.refl _, hf.2.1, hf.2.2, ?_⟩
    intro l hl
    exact absurd hl (by simp)
  case _ kv gk heq =>
    have hf := g.keyset_fields store
    rw [heq] at hf
    split at h
    · simp only [Prod.mk.injEq] at h
      obtain ⟨h1, h2⟩ := h
      subst h1; subst h2
      refine ⟨by rw [hf.1]; exact List.Subset.refl _, hf.2.1, hf.2.2, ?_⟩
      intro l hl
      exact absurd hl (by simp)
    case _ iks hks =>
      split at h
      · simp only [Prod.mk.injEq] at h
        obtain ⟨h1, h2⟩ := h
        subst h1; subst h2
        refine ⟨by rw [hf.1]; exact List.Subset.refl _, hf.2.1, hf.2.2, ?_⟩
        intro l hl
        exact absurd hl (by simp)
      case _ respKey hresp =>
        simp only at h
        split at h
        case isTrue hemp =>
          simp only [Prod.mk.injEq] at h
          obtain ⟨h1, h2⟩ := h
          subst h1; subst h2
          refine ⟨by rw [hf.1]; exact List.Subset.refl _, hf.2.1, hf.2.2, ?_⟩
          intro l hl r hr
          cases hl
          rw [List.isEmpty_iff] at hemp
          rw [hemp] at hr
          cases hr
        case isFalse hemp =>
          simp only [Prod.mk.injEq] at h
          obtain ⟨h1, h2⟩ := h
          subst h1; subst h2
          refine ⟨?_, hf.2.1, hf.2.2, ?_⟩
          · rw [← hf.1]
            exact fun x hx => List.mem_append_left _ hx
          · intro l hl r hr
            cases hl
            have hm := mem_filter_flow_run_input hr
            constructor
            · rw [← hf.1]; exact hm.2.2
            · simp only []
              refine List.mem_append_right _ ?_
              exact List.mem_map_of_mem _ hr
      case _ hresp hnot =>
        simp only [Prod.mk.injEq] at h
        obtain ⟨h1, h2⟩ := h
        subst h1; subst h2
        refine ⟨by rw [hf.1]; exact List.Subset.refl _, hf.2.1, hf.2.2, ?_⟩
        intro l hl
        exact absurd hl (by simp)

/-- The polling loop only grows the exclusion set; whenever it returns a
consumed record, the result is exactly that record's decode outcome, the
record's key was not excluded at entry, and it is excluded afterwards. -/
lemma pollLoop_spec (env : Nat → Store) (timeout2 pollInt2 : Nat) :
    ∀ (fuel : Nat) (g : get_input) (q t : Nat)
      (res : Except PyErr InputWrapperM) (rcd : Option FlowRunInputRec)
      (g1 : get_input) (t1 : Nat),
      pollLoop env timeout2 pollInt2 fuel g q t = some (res, rcd, g1, t1) →
      g.exclude_keys ⊆ g1.exclude_keys ∧
      g1.run_input_cls = g.run_input_cls ∧
      g1.raise_timeout_error = g.raise_timeout_error ∧
      ∀ r, rcd = some r →
        res = g1.to_input_wrapper r ∧ r.key ∉ g.exclude_keys ∧
          r.key ∈ g1.exclude_keys := by
  intro fuel
  induction fuel with
  | zero =>
    intro g q t res rcd g1 t1 h
    simp [pollLoop] at h
  | succ n ih =>
    intro g q t res rcd g1 t1 h
    rw [pollLoop] at h
    split at h
    · rename_i e gf heq
      have hspec := get_input.filter_for_inputs_spec g (env q) 1 heq
      simp only [Option.some.injEq, Prod.mk.injEq] at h
      obtain ⟨h1, h2, h3, h4⟩ := h
      subst h1; subst h2; subst h3; subst h4
      exact ⟨hspec.1, hspec.2.1, hspec.2.2.1, fun r hr => by cases hr⟩
    · rename_i r0 rest gf heq
      have hspec := get_input.filter_for_inputs_spec g (env q) 1 heq
      simp only [Option.some.injEq, Prod.mk.injEq] at h
      obtain ⟨h1, h2, h3, h4⟩ := h
      subst h1; subst h2; subst h3; subst h4
      refine ⟨hspec.1, hspec.2.1, hspec.2.2.1, ?_⟩
      intro r hr
      cases hr
      have hkeys := hspec.2.2.2 (r0 :: rest) rfl r0 (by simp)
      exact ⟨rfl, hkeys.1, hkeys.2⟩
    · rename_i gf heq
      have hspec := get_input.filter_for_inputs_spec g (env q) 1 heq
      split at h
      · simp only [Option.some.injEq, Prod.mk.injEq] at h
        obtain ⟨h1, h2, h3, h4⟩ := h
        subst h1; subst h2; subst h3; subst h4
        exact ⟨hspec.1, hspec.2.1, hspec.2.2.1, fun r hr => by cases hr⟩
      · have hrec := ih gf (q + 1) (t + pollInt2) res rcd g1 t1 h
        refine ⟨List.Subset.trans hspec.1 hrec.1,
                hrec.2.1.trans hspec.2.1,
                hrec.2.2.1.trans hspec.2.2.1, ?_⟩
        intro r hr
        obtain ⟨e1, e2, e3⟩ := hrec.2.2.2 r hr
        exact ⟨e1, fun hmem => e2 (hspec.1 hmem), e3⟩

/-- One `next` call only grows the exclusion set, never changes the
configuration, and whenever it consumes a record, the call's result is
exactly that record's decode outcome, the record's key was not in the
exclusion set before the call, and it is in it after the call. -/
lemma get_input.next_spec (g : get_input) (env : Nat → Store)
    (res : Except PyErr InputWrapperM) (rcd : Option FlowRunInputRec)
    (g1 : get_input) (t : Nat)
    (h : g.next env = some (res, rcd, g1, t)) :
    g.exclude_keys ⊆ g1.exclude_keys ∧
    g1.run_input_cls = g.run_input_cls ∧
    g1.raise_timeout_error = g.raise_timeout_error ∧
    ∀ r, rcd = some r →
      res = g1.to_input_wrapper r ∧ r.key ∉ g.exclude_keys ∧
        r.key ∈ g1.exclude_keys := by
  unfold get_input.next at h
  split at h
  · rename_i e gf heq
    have hspec := get_input.filter_for_inputs_spec g (env 0) 1 heq
    simp only [Option.some.injEq, Prod.mk.injEq] at h
    obtain ⟨h1, h2, h3, h4⟩ := h
    subst h1; subst h2; subst h3; subst h4
    exact ⟨hspec.1, hspec.2.1, hspec.2.2.1, fun r hr => by cases hr⟩
  · rename_i r0 rest gf heq
    have hspec := get_input.filter_for_inputs_spec g (env 0) 1 heq
    simp only [Option.some.injEq, Prod.mk.injEq] at h
    obtain ⟨h1, h2, h3, h4⟩ := h
    subst h1; subst h2; subst h3; subst h4
    refine ⟨hspec.1, hspec.2.1, hspec.2.2.1, ?_⟩
    intro r hr
    cases hr
    have hkeys := hspec.2.2.2 (r0 :: rest) rfl r0 (by simp)
    exact ⟨rfl, hkeys.1, hkeys.2⟩
  · rename_i gf heq
    have hspec := get_input.filter_for_inputs_spec g (env 0) 1 heq
    split at h
    · simp only [Option.some.injEq, Prod.mk.injEq] at h
      obtain ⟨h1, h2, h3, h4⟩ := h
      subst h1; subst h2; subst h3; subst h4
      exact ⟨hspec.1, hspec.2.1, hspec.2.2.1, fun r hr => by cases hr⟩
    · have hrec := pollLoop_spec env (2 * g.timeout) (2 * g.poll_interval)
        (2 * g.timeout + 1) gf 1 (min g.timeout (2 * g.poll_interval))
        res rcd g1 t h
      refine ⟨List.Subset.trans hspec.1 hrec.1,
              hrec.2.1.trans hspec.2.1,
              hrec.2.2.1.trans hspec.2.2.1, ?_⟩
      intro r hr
      obtain ⟨e1, e2, e3⟩ := hrec.2.2.2 r hr
      exact ⟨e1, fun hmem => e2 (hspec.1 hmem), e3⟩

/-- Across a whole session of `next` calls on one instance, the exclusion
set grows monotonically, the consumed records' keys are pairwise distinct,
and none of them was in the instance's exclusion set at the start. -/

lemma runNexts_spec : ∀ (envs : List (Nat → Store)) (g : get_input),
    g.exclude_keys ⊆ (runNexts g envs).2.exclude_keys ∧
    ((runNexts g envs).1.map (fun r => r.key)).Nodup ∧
    (∀ k ∈ (runNexts g envs).1.map (fun r => r.key), k ∉ g.exclude_keys) := by
  intro envs
  induction envs with
  | nil =>
    intro g
    refine ⟨List.Subset.refl _, ?_, ?_⟩ <;> simp [runNexts]
  | cons env rest ih =>
    intro g
    rw [runNexts]
    rcases hn : g.next env with _ | ⟨res, rcd, gmid, t⟩
    · refine ⟨List.Subset.refl _, ?_, ?_⟩ <;> simp
    · have hstep := get_input.next_spec g env res rcd gmid t hn
      have iht := ih gmid
      cases rcd with
      | none =>
        simp only []
        exact ⟨List.Subset.trans hstep.1 iht.1, iht.2.1,
          fun k hk hmem => iht.2.2 k hk (hstep.1 hmem)⟩
      | some r =>
        obtain ⟨e1, e2, e3⟩ := hstep.2.2.2 r rfl
        simp only [List.map_cons, List.nodup_cons, List.mem_cons]
        refine ⟨List.Subset.trans hstep.1 iht.1, ⟨?_, iht.2.1⟩, ?_⟩
        · intro hmem
          exact iht.2.2 r.key hmem e3
        · intro k hk
          rcases hk with hk | hk
          · subst hk; exact e2
          · exact fun hmem => iht.2.2 k hk (hstep.1 hmem)

/-- A successful first keyset resolution caches exactly what it read. -/
lemma get_input.keyset_ok (g : get_input) (store : Store) (kv : JVal)
    (h : (g.keyset store).1 = .ok kv) :
    g.keyset store = (.ok kv, { g with keysetCache := some kv }) := by
  obtain ⟨a, b, c, d, e, f⟩ := g
  unfold get_input.keyset at h ⊢
  rcases f with _ | kv0
  · dsimp only at h ⊢
    rcases hr : read_flow_run_input store "keyset" with e1 | kv1
    · rw [hr] at h
      simp at h
    · rw [hr] at h
      simp at h
      subst h
      rfl
  · dsimp only at h ⊢
    simp at h
    subst h
    rfl

/-- When keyset resolution yields `kv` and `g1`, and no record in the store
matches the response key prefix, a query finds nothing and returns `g1`
unchanged. -/
lemma get_input.filter_for_inputs_empty (g g1 : get_input) (store : Store)
    (kv iks : JVal) (rk : String)
    (hks : g.keyset store = (.ok kv, g1))
    (hname : kv.lookup g1.run_input_cls.name = some iks)
    (hresp : iks.lookup "response" = some (.str rk))
    (hnm : ∀ r ∈ store, rk.data.isPrefixOf r.key.data = false) :
    g.filter_for_inputs store 1 = (.ok [], g1) := by
  have hfe : filter_flow_run_input store rk 1 g1.exclude_keys = [] := by
    unfold filter_flow_run_input
    have hnil : store.filter
        (fun r => rk.data.isPrefixOf r.key.data
          && !(decide (r.key ∈ g1.exclude_keys))) = [] := by
      rw [List.filter_eq_nil_iff]
      intro r hr
      simp [hnm r hr]
    rw [hnil]
    rfl
  unfold get_input.filter_for_inputs
  rw [hks]
  simp only [hname, hresp, hfe]
  simp

/-- With a positive poll cadence and every query empty, the polling loop
always reaches the deadline and reports the timeout at wall-clock time
`timeout2`, given fuel at least the remaining budget. -/
lemma pollLoop_timeout (env : Nat → Store) (timeout2 pollInt2 : Nat)
    (g : get_input)
    (hq : ∀ q, g.filter_for_inputs (env q) 1 = (.ok [], g))
    (hpi : 0 < pollInt2) :
    ∀ (fuel : Nat) (q t : Nat), t < timeout2 → timeout2 - t ≤ fuel →
      pollLoop env timeout2 pollInt2 fuel g q t =
        some (.error .TimeoutError, none, g, timeout2) := by
  intro fuel
  induction fuel with
  | zero =>
    intro q t ht hf
    omega
  | succ n ih =>
    intro q t ht hf
    rw [pollLoop, hq q]
    by_cases hle : timeout2 ≤ t + pollInt2
    · simp [hle]
    · simp only [if_neg hle]
      exact ih (q + 1) (t + pollInt2) (by omega) (by omega)

/-- The function `find?` skips a leading block on which the predicate is false. -/
lemma find_skip_left {α : Type} (p : α → Bool) (l1 l2 : List α)
    (h : ∀ a ∈ l1, p a = false) :
    List.find? p (l1 ++ l2) = List.find? p l2 := by
  induction l1 with
  | nil => rfl
  | cons hd tl ih =>
    have hhd := h hd (by simp)
    simp only [List.cons_append, List.find?, hhd]
    exact ih (fun a ha => h a (by simp [ha]))

/-- Appending distinct suffixes to the same string yields distinct strings. -/
lemma string_append_ne (b : String) {x y : String} (h : x ≠ y) :
    b ++ x ≠ b ++ y := by
  intro he
  apply h
  apply String.ext
  have h2 : (b ++ x).data = (b ++ y).data := congrArg String.data he
  rw [String.data_append, String.data_append] at h2
  exact List.append_cancel_left h2

/-- A nodup association list looks up each of its own entries. -/
lemma assocLookup_of_nodup {α : Type} :
    ∀ {l : List (String × α)} {n : String} {v : α},
      (l.map Prod.fst).Nodup → (n, v) ∈ l → assocLookup n l = some v := by
  intro l
  induction l with
  | nil => intro n v _ hm; cases hm
  | cons hd tl ih =>
    intro n v hnd hm
    obtain ⟨k, w⟩ := hd
    rw [List.map_cons, List.nodup_cons] at hnd
    rcases List.mem_cons.mp hm with heq | hmem
    · rw [Prod.mk.injEq] at heq
      obtain ⟨h1, h2⟩ := heq
      subst h1; subst h2
      simp [assocLookup]
    · have hkn : ¬(k = n) := by
        intro hkn
        subst hkn
        have hmm : k ∈ tl.map Prod.fst := by
          simpa using List.mem_map_of_mem Prod.fst hmem
        exact hnd.1 hmm
      simp only [assocLookup, if_neg hkn]
      exact ih hnd.2 hmem

/-- A name occurring among an association list's keys has a lookup. -/
lemma assocLookup_isSome_of_mem {α : Type} :
    ∀ {l : List (String × α)} {n : String},
      n ∈ l.map Prod.fst → (assocLookup n l).isSome := by
  intro l
  induction l with
  | nil => intro n hm; cases hm
  | cons hd tl ih =>
    intro n hm
    obtain ⟨k, w⟩ := hd
    by_cases hk : k = n
    · simp [assocLookup, hk]
    · rw [List.map_cons, List.mem_cons] at hm
      rcases hm with hm | hm
      · exact absurd hm.symm hk
      · simp only [assocLookup, if_neg hk]
        exact ih hm

/-- Field-by-field validation reconstructs exactly the data whose entries
the payload serves verbatim. -/
lemma validateFields_roundtrip :
    ∀ (flds : List (String × Option JVal)) (data payload : List (String × JVal)),
      data.map Prod.fst = flds.map Prod.fst →
      (∀ n v, (n, v) ∈ data → assocLookup n payload = some v) →
      validateFields payload flds = .ok data := by
  intro flds
  induction flds with
  | nil =>
    intro data payload hnames _
    rw [List.map_nil, List.map_eq_nil_iff] at hnames
    subst hnames
    rfl
  | cons hd tl ih =>
    intro data payload hnames hserve
    obtain ⟨n, dflt⟩ := hd
    cases data with
    | nil => simp at hnames
    | cons dhd dtl =>
      obtain ⟨n1, v1⟩ := dhd
      simp only [List.map_cons, List.cons.injEq] at hnames
      obtain ⟨hn, htl⟩ := hnames
      subst hn
      have hlk : assocLookup n1 payload = some v1 :=
        hserve n1 v1 (by simp)
      rw [validateFields, hlk]
      simp only []
      rw [ih dtl payload htl (fun n v hm => hserve n v (by simp [hm]))]

/-- Closed-schema validation accepts a payload that serves exactly the
declared fields, reconstructing it verbatim. -/
lemma validateRunInput_self (cls : RunInputCls) (data : List (String × JVal))
    (hnames : data.map Prod.fst = cls.fields.map Prod.fst)
    (hnd : (data.map Prod.fst).Nodup) :
    validateRunInput cls (.obj data) = .ok data := by
  have hany : (data.any (fun kv => (assocLookup kv.1 cls.fields).isNone)) = false := by
    rw [List.any_eq_false]
    intro kv hkv
    have hm : kv.1 ∈ cls.fields.map Prod.fst := by
      rw [← hnames]
      exact List.mem_map_of_mem Prod.fst hkv
    have hsome := assocLookup_isSome_of_mem hm
    intro hcon
    rcases hx : assocLookup kv.1 cls.fields with _ | v
    · rw [hx] at hsome
      cases hsome
    · rw [hx] at hcon
      cases hcon
  have hflds := validateFields_roundtrip cls.fields data data hnames
    (fun n v hm => assocLookup_of_nodup hnd hm)
  simp only [validateRunInput, hany, Bool.false_eq_true, if_false]
  exact hflds

/-! ## Claim theorems -/

/-- Claim C9: for every base-key string `b`, `keyset_from_base_key b` is
exactly the pair of `b ++ "-response"` and `b ++ "-schema"`; the function
is a pure total Lean function (its result type is `Keyset`, with no
failure mode), so it is deterministic and repeated calls agree. -/
theorem keyset_from_base_key_spec (b : String) :
    keyset_from_base_key b =
      { response := b ++ "-response", schema := b ++ "-schema" } := rfl

/-- Claim C7: `keyset_from_paused_state` fails with the invalid-state-kind
condition (the RuntimeError naming the state type) on every non-paused
state and never returns a keyset there; on every paused state it returns
the keyset derived from `lowercase(name) ++ "-" ++ pause_key`. -/
theorem keyset_from_paused_state_cases (s : State) :
    (s.is_paused = false →
      keyset_from_paused_state s =
        .error (.RuntimeError (s.type.value ++ " is unsupported."))) ∧
    (s.is_paused = true →
      keyset_from_paused_state s =
        .ok (keyset_from_base_key
          (s.name.toLower ++ "-" ++ s.state_details.pause_key))) := by
  constructor <;> intro hp <;> simp [keyset_from_paused_state, hp]

/-- Witness for C7: a running state fails, a paused state succeeds. -/
theorem keyset_from_paused_state_cases_witness :
    keyset_from_paused_state ⟨.RUNNING, "Running", ⟨"pk1"⟩⟩ =
      .error (.RuntimeError (StateType.RUNNING.value ++ " is unsupported.")) ∧
    keyset_from_paused_state ⟨.PAUSED, "Paused", ⟨"pk1"⟩⟩ =
      .ok (keyset_from_base_key (String.toLower "Paused" ++ "-" ++ "pk1")) :=
  ⟨(keyset_from_paused_state_cases ⟨.RUNNING, "Running", ⟨"pk1"⟩⟩).1 (by decide),
   (keyset_from_paused_state_cases ⟨.PAUSED, "Paused", ⟨"pk1"⟩⟩).2 (by decide)⟩

/-- Claim C8: when the recipient's published SendInputKeyset has no entry
for the input's type name, `send_input` fails with the unknown-input-type
condition (the KeyError naming the type) and returns the store unchanged:
nothing is written. -/
theorem send_input_unknown_type_no_write (store : Store) (input : RunInputInst)
    (sending : Option String) (uuid : String) (kv : JVal)
    (hread : read_flow_run_input store "keyset" = .ok kv)
    (hname : kv.lookup input.cls.name = none) :
    send_input store input sending uuid =
      (.error (.KeyError input.cls.name), store) := by
  unfold send_input
  rw [hread]
  simp [hname]

/-- Witness for C8: sending an undeclared `Bar` to a recipient that only
declared `Foo` fails and leaves the store as it was. -/
theorem send_input_unknown_type_no_write_witness :
    send_input emptyChannelStore barInst none "u1" =
      (.error (.KeyError "Bar"), emptyChannelStore) :=
  send_input_unknown_type_no_write emptyChannelStore barInst none "u1"
    fooKeysetJ rfl rfl

/-- Claim C2: a successful `send_input` performs exactly one write — the new
store is the old one extended by the single record keyed
`response ++ "-" ++ uuid` holding the wrapped input — and when the minted
suffix is fresh, every pre-existing record survives and none shares the
new key, so no prior delivery to the channel is overwritten. -/
theorem send_input_single_fresh_write (store : Store) (input : RunInputInst)
    (sending : Option String) (uuid : String) (kv iks : JVal) (rk : String)
    (hread : read_flow_run_input store "keyset" = .ok kv)
    (hname : kv.lookup input.cls.name = some iks)
    (hresp : iks.lookup "response" = some (.str rk))
    (hfresh : ∀ r ∈ store, r.key ≠ rk ++ "-" ++ uuid) :
    send_input store input sending uuid =
      (.ok (), store ++ [⟨rk ++ "-" ++ uuid, inputWrapperToJVal input sending⟩]) ∧
    ∀ r ∈ store,
      r ∈ (send_input store input sending uuid).2 ∧
        r.key ≠ rk ++ "-" ++ uuid := by
  have heq : send_input store input sending uuid =
      (.ok (), store ++ [⟨rk ++ "-" ++ uuid, inputWrapperToJVal input sending⟩]) := by
    unfold send_input
    rw [hread]
    simp [hname, hresp, create_flow_run_input]
  refine ⟨heq, ?_⟩
  intro r hr
  rw [heq]
  exact ⟨List.mem_append_left _ hr, hfresh r hr⟩

/-- Witness for C2: one concrete delivery of a `Foo` value. -/
theorem send_input_single_fresh_write_witness :
    send_input emptyChannelStore fooInst (some "r1") "u1" =
      (.ok (), emptyChannelStore ++
        [⟨"foo-response" ++ "-" ++ "u1", inputWrapperToJVal fooInst (some "r1")⟩]) ∧
    ∀ r ∈ emptyChannelStore,
      r ∈ (send_input emptyChannelStore fooInst (some "r1") "u1").2 ∧
        r.key ≠ "foo-response" ++ "-" ++ "u1" :=
  send_input_single_fresh_write emptyChannelStore fooInst (some "r1") "u1"
    fooKeysetJ fooKeyset.toJVal "foo-response" rfl rfl rfl (by decide)

/-- Claim C6: `load` reads the raw value at the keyset's response key and,
under the closed-schema policy, fails with a ValidationError whenever that
payload contains a field the type does not declare, instead of returning
an instance. -/
theorem load_rejects_undeclared_field (cls : RunInputCls) (store : Store)
    (ks : Keyset) (kvs : List (String × JVal)) (k : String) (v : JVal)
    (hread : read_flow_run_input store ks.response = .ok (.obj kvs))
    (hmem : (k, v) ∈ kvs)
    (hundecl : assocLookup k cls.fields = none) :
    RunInputCls.load cls store ks = .error .ValidationError := by
  unfold RunInputCls.load
  rw [hread]
  have hany : (kvs.any (fun kv => (assocLookup kv.1 cls.fields).isNone)) = true := by
    rw [List.any_eq_true]
    exact ⟨(k, v), hmem, by simp [hundecl]⟩
  simp [validateRunInput, hany]

/-- Witness for C6: a payload carrying the undeclared field `zz` is
rejected. -/
theorem load_rejects_undeclared_field_witness :
    RunInputCls.load fooCls
      [⟨"k" ++ "-response", .obj [("x", .str "1"), ("zz", .null)]⟩]
      (keyset_from_base_key "k") = .error .ValidationError :=
  load_rejects_undeclared_field fooCls
    [⟨"k" ++ "-response", .obj [("x", .str "1"), ("zz", .null)]⟩]
    (keyset_from_base_key "k") [("x", .str "1"), ("zz", .null)] "zz" .null
    rfl (List.mem_cons_of_mem _ (List.mem_cons_self _ _)) rfl

/-- Counterexample to C5 as stated: `save` writes only the schema record
under `keyset.schema`, while `load` reads `keyset.response`, which `save`
never writes — so on a fresh store, save-then-load fails with NotFound and
does not return the original instance. -/
theorem save_load_roundtrip_counterexample :
    RunInputCls.load fooCls
      (RunInputCls.save fooCls [] (keyset_from_base_key "foo"))
      (keyset_from_base_key "foo") = .error .NotFound ∧
    RunInputCls.load fooCls
      (RunInputCls.save fooCls [] (keyset_from_base_key "foo"))
      (keyset_from_base_key "foo") ≠ .ok fooInst := by
  have h1 : RunInputCls.load fooCls
      (RunInputCls.save fooCls [] (keyset_from_base_key "foo"))
      (keyset_from_base_key "foo") = .error .NotFound := rfl
  refine ⟨h1, ?_⟩
  rw [h1]
  intro hcon
  cases hcon

/-- Claim C5 (amended): `save` registers only the schema, so the round trip
additionally requires the instance's serialized field map to be stored
under the keyset's response key; after `save` and that response write,
`load` returns a value field-for-field equal to the original instance. -/
theorem save_store_response_load_roundtrip (cls : RunInputCls) (store : Store)
    (b : String) (data : List (String × JVal))
    (hnames : data.map Prod.fst = cls.fields.map Prod.fst)
    (hnd : (cls.fields.map Prod.fst).Nodup)
    (hfresh : ∀ r ∈ store, r.key ≠ (keyset_from_base_key b).response) :
    RunInputCls.load cls
      (create_flow_run_input
        (RunInputCls.save cls store (keyset_from_base_key b))
        (keyset_from_base_key b).response (.obj data))
      (keyset_from_base_key b) = .ok ⟨cls, data⟩ := by
  have hrd : read_flow_run_input
      (create_flow_run_input
        (RunInputCls.save cls store (keyset_from_base_key b))
        (keyset_from_base_key b).response (.obj data))
      (keyset_from_base_key b).response = .ok (.obj data) := by
    unfold read_flow_run_input RunInputCls.save create_flow_run_input
    rw [find_skip_left]
    · simp [List.find?]
    · intro r hr
      rw [List.mem_append] at hr
      simp only [beq_eq_false_iff_ne, ne_eq]
      rcases hr with hr | hr
      · exact hfresh r hr
      · simp at hr
        subst hr
        exact string_append_ne b (by decide)
  have hnd2 : (data.map Prod.fst).Nodup := by rw [hnames]; exact hnd
  unfold RunInputCls.load
  rw [hrd]
  simp [validateRunInput_self cls data hnames hnd2]

/-- Witness for the amended C5 at a concrete instance of `Foo`. -/
theorem save_store_response_load_roundtrip_witness :
    RunInputCls.load fooCls
      (create_flow_run_input
        (RunInputCls.save fooCls [] (keyset_from_base_key "foo"))
        (keyset_from_base_key "foo").response (.obj [("x", .str "1")]))
      (keyset_from_base_key "foo") = .ok ⟨fooCls, [("x", .str "1")]⟩ :=
  save_store_response_load_roundtrip fooCls [] "foo" [("x", .str "1")]
    rfl (by decide) (by simp)

/-- Claim C1: deduplication on a single poller instance.  Over any session
of `next` calls (with arbitrary store histories), the instance's exclusion
set only ever grows, every store query passes the current exclusion set,
and the keys of the consumed (yielded) records are pairwise distinct and
disjoint from the initial exclusion set: once a record's key has been
yielded, no subsequent `next` call on that instance yields it again, even
if the record is still in the store. -/
theorem get_input_dedup_session (g : get_input) (envs : List (Nat → Store)) :
    g.exclude_keys ⊆ (runNexts g envs).2.exclude_keys ∧
    ((runNexts g envs).1.map (fun r => r.key)).Nodup ∧
    (∀ k ∈ (runNexts g envs).1.map (fun r => r.key), k ∉ g.exclude_keys) :=
  runNexts_spec envs g

/-- Witness for C1: a two-call session over a store that keeps holding the
already consumed record. -/
theorem get_input_dedup_session_witness :
    gDemo.exclude_keys ⊆
      (runNexts gDemo [fun _ => demoStore, fun _ => demoStore]).2.exclude_keys ∧
    ((runNexts gDemo [fun _ => demoStore, fun _ => demoStore]).1.map
      (fun r => r.key)).Nodup ∧
    (∀ k ∈ (runNexts gDemo [fun _ => demoStore, fun _ => demoStore]).1.map
      (fun r => r.key), k ∉ gDemo.exclude_keys) :=
  get_input_dedup_session gDemo [fun _ => demoStore, fun _ => demoStore]

/-- Claim C10: when `next` finds a record, the record's key joins the
exclusion set inside `filter_for_inputs`, before decoding; the call's
result is exactly the decode/validation outcome of that record (a failure
propagates), the exclusion is not rolled back on failure, and no later
`next` call on the instance ever consumes a record with that key again. -/
theorem next_decode_failure_keeps_exclusion (g : get_input) (env : Nat → Store)
    (res : Except PyErr InputWrapperM) (r : FlowRunInputRec)
    (g1 : get_input) (t : Nat)
    (h : g.next env = some (res, some r, g1, t)) :
    res = g1.to_input_wrapper r ∧
    r.key ∈ g1.exclude_keys ∧
    ∀ (envs : List (Nat → Store)) (k : String),
      k ∈ (runNexts g1 envs).1.map (fun rec => rec.key) → k ≠ r.key := by
  have hs := get_input.next_spec g env res (some r) g1 t h
  obtain ⟨e1, e2, e3⟩ := hs.2.2.2 r rfl
  refine ⟨e1, e3, ?_⟩
  intro envs k hk heq
  subst heq
  exact (runNexts_spec envs g1).2.2 r.key hk e3

/-- Witness for C10: a malformed envelope fails decoding with a KeyError,
yet its key stays excluded and no continuation session consumes it. -/
theorem next_decode_failure_keeps_exclusion_witness :
    (Except.error (PyErr.KeyError "value") : Except PyErr InputWrapperM) =
      (⟨fooCls, 2, 1, ["foo-response-bad"], false, some fooKeysetJ⟩ :
        get_input).to_input_wrapper badRec ∧
    badRec.key ∈ (⟨fooCls, 2, 1, ["foo-response-bad"], false, some fooKeysetJ⟩ :
        get_input).exclude_keys ∧
    ∀ (envs : List (Nat → Store)) (k : String),
      k ∈ (runNexts
        (⟨fooCls, 2, 1, ["foo-response-bad"], false, some fooKeysetJ⟩ : get_input)
        envs).1.map (fun rec => rec.key) → k ≠ badRec.key :=
  next_decode_failure_keeps_exclusion gDemo (fun _ => badStore)
    (.error (.KeyError "value")) badRec
    ⟨fooCls, 2, 1, ["foo-response-bad"], false, some fooKeysetJ⟩ 0 (by rfl)

/-- Claim C4: iteration-protocol callers receive end-of-sequence
(StopIteration from `__next__`, StopAsyncIteration from `__anext__`) if
and only if the underlying `next` call timed out and `raise_timeout_error`
is false; when it is true, the TimeoutError propagates unchanged. -/
theorem get_input_iteration_end_of_sequence (g : get_input) (env : Nat → Store)
    (res : Except PyErr InputWrapperM) (rcd : Option FlowRunInputRec)
    (g1 : get_input) (t : Nat)
    (h : g.next env = some (res, rcd, g1, t)) :
    ((g.dunder_next env = some (.stopIteration, rcd, g1, t) ∧
      g.dunder_anext env = some (.stopAsyncIteration, rcd, g1, t)) ↔
      (res = .error .TimeoutError ∧ g.raise_timeout_error = false)) ∧
    ((res = .error .TimeoutError ∧ g.raise_timeout_error = true) →
      (g.dunder_next env = some (.raised .TimeoutError, rcd, g1, t) ∧
       g.dunder_anext env = some (.raised .TimeoutError, rcd, g1, t))) := by
  unfold get_input.dunder_next get_input.dunder_anext
  rw [h]
  constructor
  · constructor
    · rintro ⟨h1, h2⟩
      cases res with
      | ok w => simp at h1
      | error e =>
        cases e with
        | TimeoutError =>
          refine ⟨rfl, ?_⟩
          by_cases hflag : g.raise_timeout_error = true
          · simp [hflag] at h1
          · simpa using hflag
        | NotFound => simp at h1
        | KeyError k => simp at h1
        | ValidationError => simp at h1
        | RuntimeError m => simp at h1
        | TypeError => simp at h1
    · rintro ⟨hres, hflag⟩
      subst hres
      simp [hflag]
  · rintro ⟨hres, hflag⟩
    subst hres
    simp [hflag]

/-- Witness for C4 at a concrete timed-out call with the flag false. -/
theorem get_input_iteration_end_of_sequence_witness :
    ((gDemo.dunder_next (fun _ => emptyChannelStore) =
        some (.stopIteration, none,
          { gDemo with keysetCache := some fooKeysetJ }, 4) ∧
      gDemo.dunder_anext (fun _ => emptyChannelStore) =
        some (.stopAsyncIteration, none,
          { gDemo with keysetCache := some fooKeysetJ }, 4)) ↔
      ((Except.error PyErr.TimeoutError : Except PyErr InputWrapperM) =
          .error .TimeoutError ∧
        gDemo.raise_timeout_error = false)) ∧
    (((Except.error PyErr.TimeoutError : Except PyErr InputWrapperM) =
          .error .TimeoutError ∧
        gDemo.raise_timeout_error = true) →
      (gDemo.dunder_next (fun _ => emptyChannelStore) =
        some (.raised .TimeoutError, none,
          { gDemo with keysetCache := some fooKeysetJ }, 4) ∧
      gDemo.dunder_anext (fun _ => emptyChannelStore) =
        some (.raised .TimeoutError, none,
          { gDemo with keysetCache := some fooKeysetJ }, 4))) :=
  get_input_iteration_end_of_sequence gDemo (fun _ => emptyChannelStore)
    (.error .TimeoutError) none { gDemo with keysetCache := some fooKeysetJ } 4 rfl

/-- Claim C3: with a positive poll cadence, a resolvable channel keyset and
no matching record ever in the store, `next` terminates (the loop is
bounded) and reports the timeout at wall-clock time `2 * timeout`
half-seconds — exactly `timeout` seconds, within `T + ε`. -/
theorem get_input_next_timeout_bound (g : get_input) (env : Nat → Store)
    (kv iks : JVal) (rk : String)
    (hpi : 0 < g.poll_interval)
    (hkv : (g.keyset (env 0)).1 = .ok kv)
    (hname : kv.lookup g.run_input_cls.name = some iks)
    (hresp : iks.lookup "response" = some (.str rk))
    (hnm : ∀ (q : Nat), ∀ r ∈ env q, rk.data.isPrefixOf r.key.data = false) :
    g.next env =
      some (.error .TimeoutError, none,
        { g with keysetCache := some kv }, 2 * g.timeout) := by
  have hks := get_input.keyset_ok g (env 0) kv hkv
  have hname1 : kv.lookup
      ({ g with keysetCache := some kv } : get_input).run_input_cls.name =
        some iks := hname
  have hflt0 : g.filter_for_inputs (env 0) 1 =
      (.ok [], { g with keysetCache := some kv }) :=
    get_input.filter_for_inputs_empty g _ (env 0) kv iks rk hks hname1 hresp (hnm 0)
  have hksq : ∀ s : Store,
      ({ g with keysetCache := some kv } : get_input).keyset s =
        (.ok kv, { g with keysetCache := some kv }) := fun s => rfl
  have hfltq : ∀ q,
      ({ g with keysetCache := some kv } : get_input).filter_for_inputs (env q) 1 =
        (.ok [], { g with keysetCache := some kv }) := fun q =>
    get_input.filter_for_inputs_empty _ _ (env q) kv iks rk (hksq (env q))
      hname1 hresp (hnm q)
  have hminle : min g.timeout (2 * g.poll_interval) ≤ g.timeout :=
    Nat.min_le_left _ _
  unfold get_input.next
  rw [hflt0]
  dsimp only
  by_cases hc : 2 * g.timeout ≤ 0 + min g.timeout (2 * g.poll_interval)
  · rw [if_pos hc]
  · rw [if_neg hc]
    exact pollLoop_timeout env (2 * g.timeout) (2 * g.poll_interval)
      { g with keysetCache := some kv } hfltq (by omega)
      (2 * g.timeout + 1) 1 (min g.timeout (2 * g.poll_interval))
      (by omega) (by omega)

/-- Witness for C3: a concrete poller (timeout 2 s, poll interval 1 s) over
a store that never holds a matching record times out at 4 half-seconds. -/
theorem get_input_next_timeout_bound_witness :
    gDemo.next (fun _ => emptyChannelStore) =
      some (.error .TimeoutError, none,
        { gDemo with keysetCache := some fooKeysetJ }, 2 * gDemo.timeout) :=
  get_input_next_timeout_bound gDemo (fun _ => emptyChannelStore)
    fooKeysetJ fooKeyset.toJVal "foo-response" (by decide) rfl rfl rfl
    (by
      intro q r hr
      simp only [emptyChannelStore, List.mem_singleton] at hr
      subst hr
      decide)
